import Mathlib

/-!
# Mini-shell execution core (`src/src/cmd.c`)

A shallow embedding of the command evaluator of the mini-shell: variable
substitution, redirections, the simple-command executor, the two process
orchestration primitives and the recursive tree evaluator, followed by the
properties established about them.
-/

namespace MiniShell

/-! ## Variable substitution (`substitute_variables`, cmd.c 118-151)

The C function works in place on a `strdup` copy of its input.  The copy is
modelled as the list of bytes of the allocation, terminator included; every
access outside the allocation is undefined behaviour and is reported as
`none`. -/

/-- The string terminator `'\0'`. -/
def NUL : Char := Char.ofNat 0

/-- The `isalpha` test of `<ctype.h>` (C locale). -/
def isalpha (c : Char) : Bool := c.isAlpha

/-- The `isalnum` test of `<ctype.h>` (C locale). -/
def isalnum (c : Char) : Bool := c.isAlphanum

/-- The bytes of a C string: everything before the first terminator. -/
def cstr (bytes : List Char) : List Char := bytes.takeWhile (fun c => c != NUL)

/-- The allocation made by `strdup(input)`: the bytes of the string followed
by the terminator. -/
def strdup (input : List Char) : List Char := cstr input ++ [NUL]

/-- The value of `strlen(p)` where `mem` is the allocation from `p` on:
`none` when no terminator is found inside the allocation. -/
def strlen : List Char → Option Nat
  | [] => none
  | c :: cs => if c = NUL then some 0 else (strlen cs).map (fun n => n + 1)

/-- Number of steps taken by `while (isalnum(*var_end) || *var_end == '_') var_end++`
when `var_end` starts at the head of `mem`; `none` when the scan leaves the
allocation. -/
def scan_name : List Char → Option Nat
  | [] => none
  | c :: cs => if isalnum c || c == '_' then (scan_name cs).map (fun n => n + 1) else some 0

/-- The call `memmove(buf + dst, buf + src, n)` inside the allocation `buf`. -/
def memmove (buf : List Char) (dst src n : Nat) : Option (List Char) :=
  if n = 0 then some buf
  else if src + n ≤ buf.length ∧ dst + n ≤ buf.length then
    some (buf.take dst ++ (buf.drop src).take n ++ buf.drop (dst + n))
  else none

/-- The call `memcpy(buf + dst, value, strlen(value))` inside the allocation `buf`. -/
def memcpy (buf : List Char) (dst : Nat) (value : List Char) : Option (List Char) :=
  if dst + value.length ≤ buf.length then
    some (buf.take dst ++ value ++ buf.drop (dst + value.length))
  else none

/-- The `while (*ptr != '\0')` loop of `substitute_variables`.  `ptr` is the
offset of the cursor in the allocation `buf`; the first argument counts the
bytes from `ptr` to the end of the allocation, so that it reaches `0` exactly
when the cursor has left the allocation. -/
def substitute_loop (getenv : String → Option String) :
    Nat → List Char → Nat → Option (List Char)
  | 0, _, _ => none
  | left + 1, buf, ptr =>
    match buf.get? ptr with
    | none => none
    | some c =>
      if c = NUL then some buf
      else if c = '$' then
        match buf.get? (ptr + 1) with
        | none => none
        | some d =>
          if isalpha d then
            let var_start := ptr + 1
            match scan_name (buf.drop (var_start + 1)) with
            | none => none
            | some k =>
              let var_end := var_start + 1 + k
              if var_start ≠ var_end then
                let buf1 := buf.set var_end NUL
                let var_length := var_end - var_start
                let var_name := String.mk (cstr ((buf1.drop var_start).take var_length))
                match getenv var_name with
                | none => substitute_loop getenv left buf1 (ptr + 1)
                | some var_value =>
                  let value := cstr var_value.data
                  match strlen (buf1.drop (ptr + 1 + var_length)) with
                  | none => none
                  | some remaining_length =>
                    match memmove buf1 (ptr + value.length + 1) (ptr + 1 + var_length)
                        remaining_length with
                    | none => none
                    | some buf2 =>
                      match memcpy buf2 (ptr + 1) value with
                      | none => none
                      | some buf3 => substitute_loop getenv left buf3 (ptr + 1)
              else substitute_loop getenv left buf (ptr + 1)
          else substitute_loop getenv left buf (ptr + 1)
      else substitute_loop getenv left buf (ptr + 1)

/-- The function `substitute_variables`: the C string found in the
allocation when the loop ends, `none` when the loop leaves the allocation. -/
def substitute_variables (getenv : String → Option String) (input : String) : Option String :=
  let result := strdup input.data
  (substitute_loop getenv result.length result 0).map (fun buf => String.mk (cstr buf))

/-! ## Data model

Only the fields that `cmd.c` reads are kept.  The declarations themselves
live in `cmd.h`, which is not part of the sources at hand; the two constants
of that header used by `cmd.c` are parameters of the model. -/

/-- The constants of `cmd.h` that `cmd.c` uses. -/
structure cmd_h where
  /-- The status `SHELL_EXIT`. -/
  SHELL_EXIT : Int
  /-- The flag `IO_OUT_APPEND`. -/
  IO_OUT_APPEND : Nat

/-- The value of `EXIT_FAILURE` from `<stdlib.h>`. -/
def EXIT_FAILURE : Int := 1

/-- Descriptor number of the standard input. -/
def STDIN_FILENO : Nat := 0

/-- Descriptor number of the standard output. -/
def STDOUT_FILENO : Nat := 1

/-- Descriptor number of the standard error. -/
def STDERR_FILENO : Nat := 2

/-- The operators tested by `parse_command`; `OP_OTHER` stands for every
other value of the enumeration (the `default` arm of the switch). -/
inductive operator_t
  | OP_NONE
  | OP_SEQUENTIAL
  | OP_PARALLEL
  | OP_CONDITIONAL_NZERO
  | OP_CONDITIONAL_ZERO
  | OP_PIPE
  | OP_OTHER
  deriving DecidableEq

/-- A simple command.  A `word_t *` of which only `->string` is read is an
`Option String` (`none` is the null pointer); `params` is the list linked by
`next_word` (`[]` is the null pointer). -/
structure simple_command_t where
  verb : Option String
  params : List String
  in_ : Option String
  out : Option String
  err : Option String
  io_flags : Nat
  deriving DecidableEq

/-- A `command_t *`: the null pointer or a node. -/
inductive command_t
  | NULL
  | node (op : operator_t) (scmd : Option simple_command_t) (cmd1 cmd2 : command_t)
  deriving DecidableEq

/-! ## Processes and the operating system -/

/-- The three flag combinations passed to `open` in `cmd.c`:
`O_RDONLY`, `O_WRONLY | O_CREAT | O_TRUNC` and `O_WRONLY | O_CREAT | O_APPEND`. -/
inductive OpenMode
  | O_RDONLY
  | O_TRUNC
  | O_APPEND
  deriving DecidableEq

/-- What a file descriptor refers to. -/
inductive OpenFile
  | inherited (fd : Nat)
  | file (path : String) (mode : OpenMode)
  | pipe_read (id : Nat)
  | pipe_write (id : Nat)
  deriving DecidableEq

/-- The calls with an effect outside the calling process, in the order made. -/
inductive Event
  | stderr (text : String)
  | perror (msg : String)
  | fork
  | open_ (path : String) (mode : OpenMode)
  | exec (file : String) (argv : List String) (fds : List (Option OpenFile))
  deriving DecidableEq

/-- State seen by one process.  `cwd` and `fds` (the descriptor table,
indexed by descriptor number) belong to the process; `files` (the regular
files that exist) and `trace` are shared with its children. -/
structure World where
  cwd : String
  fds : List (Option OpenFile)
  files : List String
  trace : List Event
  deriving DecidableEq

/-- The part of the system that `cmd.c` does not determine. -/
structure Host where
  /-- The environment. -/
  getenv : String → Option String
  /-- From the working directory and the argument of `chdir`, the new working
  directory, `none` when `chdir` fails. -/
  chdir : String → String → Option String
  /-- Whether `open(path, O_WRONLY | O_CREAT | ..., 0666)` succeeds. -/
  creat : String → Bool
  /-- Whether the next `fork` succeeds. -/
  fork : List Event → Bool
  /-- Whether the next `pipe` succeeds. -/
  pipe : List Event → Bool
  /-- The program run by `execvp(file, argv)` in a process whose state is the
  third argument: `none` when the call fails, otherwise the wait status with
  which the program terminates and the files that exist then. -/
  exec : String → List String → World → Option (Nat × List String)

/-- How a piece of code of the shell ends: it returns a value, it terminates
the process through `exit` or `_exit`, or its behaviour is undefined. -/
inductive Res (α : Type)
  | ret (value : α)
  | exit (code : Int)
  | undefined
  deriving DecidableEq

/-- Wait status of a process that terminated through `exit(code)`. -/
def exit_status (code : Int) : Nat := (code % 256).toNat * 256

/-- The macro `WEXITSTATUS`. -/
def WEXITSTATUS (status : Nat) : Nat := (status >>> 8) &&& 0xff

/-- The call `perror(msg)`. -/
def perror (msg : String) (w : World) : World :=
  { w with trace := w.trace ++ [Event.perror msg] }

/-- The call `fprintf(stderr, ...)` writing `text`. -/
def fprintf_stderr (text : String) (w : World) : World :=
  { w with trace := w.trace ++ [Event.stderr text] }

/-- The entry of the descriptor table for `fd`. -/
def fd_get (fds : List (Option OpenFile)) (fd : Int) : Option OpenFile :=
  if fd < 0 then none else (fds.get? fd.toNat).join

/-- The descriptor table with entry `fd` replaced. -/
def fd_put (fds : List (Option OpenFile)) (fd : Nat) (f : Option OpenFile) :
    List (Option OpenFile) :=
  if fd < fds.length then fds.set fd f
  else fds ++ List.replicate (fd - fds.length) none ++ [f]

/-- The lowest descriptor number not in use. -/
def lowest_free : List (Option OpenFile) → Nat
  | [] => 0
  | none :: _ => 0
  | some _ :: rest => lowest_free rest + 1

/-- The call `open(path, mode)`: the new descriptor or `-1`. -/
def sys_open (os : Host) (path : String) (mode : OpenMode) (w : World) : Int × World :=
  let w1 := { w with trace := w.trace ++ [Event.open_ path mode] }
  let ok := match mode with
    | OpenMode.O_RDONLY => decide (path ∈ w.files)
    | _ => os.creat path
  if ok then
    let fd := lowest_free w.fds
    ((fd : Int), { w1 with
      fds := fd_put w.fds fd (some (OpenFile.file path mode))
      files := if path ∈ w.files then w.files else w.files ++ [path] })
  else (-1, w1)

/-- The call `dup2(oldfd, newfd)`. -/
def sys_dup2 (oldfd : Int) (newfd : Nat) (w : World) : Int × World :=
  match fd_get w.fds oldfd with
  | none => (-1, w)
  | some f => ((newfd : Int), { w with fds := fd_put w.fds newfd (some f) })

/-- The call `close(fd)`. -/
def sys_close (fd : Int) (w : World) : Int × World :=
  match fd_get w.fds fd with
  | none => (-1, w)
  | some _ => (0, { w with fds := fd_put w.fds fd.toNat none })

/-- The call `pipe(pipe_file_directory)` when it succeeds: the read end, the
write end and the new state. -/
def sys_pipe (w : World) : Nat × Nat × World :=
  let id := w.trace.length
  let rd := lowest_free w.fds
  let fds1 := fd_put w.fds rd (some (OpenFile.pipe_read id))
  let wr := lowest_free fds1
  (rd, wr, { w with fds := fd_put fds1 wr (some (OpenFile.pipe_write id)) })

/-- The call `execvp(file, argv)` (or `execlp`): the wait status of the
program when the call succeeds, `none` when it returns. -/
def sys_exec (os : Host) (file : String) (argv : List String) (w : World) :
    Option Nat × World :=
  let w1 := { w with trace := w.trace ++ [Event.exec file argv w.fds] }
  match os.exec file argv w1 with
  | some (status, files) => (some status, { w1 with files := files })
  | none => (none, w1)

/-- What remains in the parent of the state of a terminated child: the
shared part. -/
def rejoin (parent child : World) : World :=
  { parent with files := child.files, trace := child.trace }

/-! ## Redirections (cmd.c 49-117)

Each function runs in a forked child; `Except.error (code, w)` is the child
terminating through `exit(code)` in state `w`. -/

/-- The function `redirect_in`. -/
def redirect_in (os : Host) (s : simple_command_t) (w : World) : Except (Int × World) World :=
  match s.in_ with
  | none => Except.ok w
  | some path =>
    match sys_open os path OpenMode.O_RDONLY w with
    | (file_directory, w1) =>
      if file_directory = -1 then Except.error (EXIT_FAILURE, perror "open" w1)
      else
        match sys_dup2 file_directory STDIN_FILENO w1 with
        | (r, w2) =>
          if r = -1 then
            Except.error (EXIT_FAILURE, (sys_close file_directory (perror "dup2" w2)).2)
          else Except.ok (sys_close file_directory w2).2

/-- The function `redirect_out`, called with `s->out` not null: `out` is
`s->out->string`. -/
def redirect_out (H : cmd_h) (os : Host) (out : String) (io_flags : Nat) (w : World) :
    Except (Int × World) World :=
  match (if io_flags &&& H.IO_OUT_APPEND ≠ 0 then sys_open os out OpenMode.O_APPEND w
         else sys_open os out OpenMode.O_TRUNC w) with
  | (file_directory, w1) =>
    if file_directory = -1 then Except.error (EXIT_FAILURE, perror "open" w1)
    else
      match sys_close STDOUT_FILENO w1 with
      | (c, w2) =>
        if c = -1 then Except.error (EXIT_FAILURE, perror "close" w2)
        else
          match sys_dup2 file_directory STDOUT_FILENO w2 with
          | (r, w3) =>
            if r = -1 then Except.error (EXIT_FAILURE, perror "dup2" w3)
            else Except.ok (sys_close file_directory w3).2

/-- The function `redirect_error`, called with `s->err` not null: `err` is
`s->err->string`.  The condition `s->io_flags && IO_OUT_APPEND` is the
logical conjunction of the source. -/
def redirect_error (H : cmd_h) (os : Host) (err : String) (io_flags : Nat) (w : World) :
    Except (Int × World) World :=
  if io_flags ≠ 0 ∧ H.IO_OUT_APPEND ≠ 0 then
    match sys_open os err OpenMode.O_APPEND w with
    | (file_directory, w1) =>
      Except.ok (sys_close file_directory (sys_dup2 file_directory STDERR_FILENO w1).2).2
  else
    match sys_open os err OpenMode.O_TRUNC w with
    | (file_directory, w1) =>
      match sys_dup2 file_directory STDERR_FILENO w1 with
      | (_, w2) =>
        if ¬ (io_flags ≠ 0 ∧ H.IO_OUT_APPEND ≠ 0) then
          match sys_dup2 file_directory STDOUT_FILENO w2 with
          | (r, w3) =>
            if r = -1 then
              Except.error (EXIT_FAILURE, (sys_close file_directory (perror "dup2" w3)).2)
            else Except.ok (sys_close file_directory w3).2
        else Except.ok (sys_close file_directory w2).2

/-- The three guarded calls at the head of the child branch of
`parse_simple` (cmd.c 202-207). -/
def redirections (H : cmd_h) (os : Host) (s : simple_command_t) (w : World) :
    Except (Int × World) World :=
  match (if s.in_.isSome then redirect_in os s w else Except.ok w) with
  | Except.error e => Except.error e
  | Except.ok w1 =>
    match (match s.out with
           | some out => redirect_out H os out s.io_flags w1
           | none => Except.ok w1) with
    | Except.error e => Except.error e
    | Except.ok w2 =>
      match s.err with
      | some err => redirect_error H os err s.io_flags w2
      | none => Except.ok w2

/-! ## The simple-command executor (cmd.c 24-43, 152-256) -/

/-- The function `shell_cd`, with `dir->string` as argument. -/
def shell_cd (os : Host) (dir : String) (w : World) : Int × World :=
  match os.chdir w.cwd dir with
  | none => (1, perror "cd" w)
  | some d => (0, { w with cwd := d })

/-- The loop `param->string = substitute_variables(param->string)` over the
parameter list. -/
def substitute_params (getenv : String → Option String) : List String → Option (List String)
  | [] => some []
  | param :: next_word =>
    match substitute_variables getenv param with
    | none => none
    | some string => (substitute_params getenv next_word).map (fun rest => string :: rest)

/-- The `for` loop of the `gcc` branch (cmd.c 214-222), started with the
current values of `fisier_input` and `fisier_output`. -/
def gcc_files : List String → Option String → String → Option String × String
  | [], fisier_input, fisier_output => (fisier_input, fisier_output)
  | param :: [], _, fisier_output => (some param, fisier_output)
  | param :: next_word :: rest, fisier_input, fisier_output =>
    if param = "-o" then gcc_files (next_word :: rest) fisier_input next_word
    else gcc_files (next_word :: rest) (some param) fisier_output

/-- The vector `args` that `execvp` reads (cmd.c 232-245): the stores made
into it, up to the null pointer.  With one parameter or more the null
pointer is stored one slot past the declared length of the array. -/
def build_args (verb : String) (params : List String) : List String :=
  match params with
  | [] => [verb]
  | p1 :: [] => [verb, p1]
  | p1 :: p2 :: _ => [verb, p1, p2]

/-- The last two statements of the child branch, reached when the `exec`
call returns. -/
def execution_failed (verb : String) (w : World) : Nat × World :=
  (exit_status EXIT_FAILURE, fprintf_stderr ("Execution failed for '" ++ verb ++ "'\n") w)

/-- The child branch of `parse_simple` (`pid == 0`, cmd.c 200-249), run on
the copy `w` of the state of the parent: the wait status with which the
child terminates and its final state. -/
def parse_simple_child (H : cmd_h) (os : Host) (verb : String) (s : simple_command_t)
    (w : World) : Nat × World :=
  match redirections H os s w with
  | Except.error (code, w1) => (exit_status code, w1)
  | Except.ok w1 =>
    if verb = "gcc" ∧ s.params ≠ [] then
      match gcc_files s.params none "output" with
      | (some fisier_input, fisier_output) =>
        match sys_exec os "gcc" ["gcc", "-o", fisier_output, fisier_input] w1 with
        | (some status, w2) => (status, w2)
        | (none, w2) => execution_failed verb w2
      | (none, _) => (exit_status EXIT_FAILURE, fprintf_stderr "Invalid gcc command\n" w1)
    else
      match sys_exec os verb (build_args verb s.params) w1 with
      | (some status, w2) => (status, w2)
      | (none, w2) => execution_failed verb w2

/-- What `parse_simple` leaves behind: the status, the command as it stands
in memory (the parameters are rewritten in place) and the state. -/
structure Simple where
  status : Res Int
  scmd : Option simple_command_t
  world : World
  deriving DecidableEq

/-- The function `parse_simple`, seen from the calling process.  The
arguments `level` and `father` are never read and are left out. -/
def parse_simple (H : cmd_h) (os : Host) (s : Option simple_command_t) (w : World) : Simple :=
  match s with
  | none => ⟨Res.ret 1, s, fprintf_stderr "Invalid command\n" w⟩
  | some sc =>
    match sc.verb with
    | none => ⟨Res.ret 1, s, fprintf_stderr "Invalid command\n" w⟩
    | some verb =>
      match substitute_params os.getenv sc.params with
      | none => ⟨Res.undefined, s, w⟩
      | some params =>
        let s1 : simple_command_t := { sc with params := params }
        if verb = "exit" ∨ verb = "quit" then ⟨Res.exit EXIT_FAILURE, some s1, w⟩
        else if verb = "cd" then
          match (match s1.out with
                 | some out => sys_open os out OpenMode.O_TRUNC w
                 | none => (0, w)) with
          | (file_directory, w1) =>
            if file_directory = -1 then ⟨Res.ret 1, some s1, perror "open" w1⟩
            else
              match s1.params with
              | dir :: _ =>
                ⟨Res.ret (shell_cd os dir w1).1, some s1, (shell_cd os dir w1).2⟩
              | [] =>
                match os.getenv "HOME" with
                | some director_home =>
                  ⟨Res.ret (shell_cd os director_home w1).1, some s1,
                    (shell_cd os director_home w1).2⟩
                | none => ⟨Res.ret 1, some s1, fprintf_stderr "cd: No home directory\n" w1⟩
        else if os.fork w.trace = false then ⟨Res.ret 1, some s1, perror "fork" w⟩
        else
          let w1 := { w with trace := w.trace ++ [Event.fork] }
          match parse_simple_child H os verb s1 w1 with
          | (status_child, wc) =>
            ⟨Res.ret (WEXITSTATUS status_child : Nat), some s1, rejoin w1 wc⟩

/-! ## Process orchestration (cmd.c 257-339)

The subtree a child evaluates is passed as the function the child runs, the
evaluator applied to `cmd1` or `cmd2`.  The two children are concurrent; the
model lets the first one finish before the second one starts. -/

/-- A forked child running `_exit(body)` on its copy `w` of the state: its
wait status (`none` when the behaviour of `body` is undefined) and its final
state. -/
def run_child (body : World → Res Int × World) (w : World) : Option Nat × World :=
  match body w with
  | (Res.ret status, wc) => (some (exit_status status), wc)
  | (Res.exit code, wc) => (some (exit_status code), wc)
  | (Res.undefined, wc) => (none, wc)

/-- The two `waitpid` calls and the `return` that end both primitives. -/
def wait_both (status1 status2 : Option Nat) (w : World) : Res Bool × World :=
  match status1, status2 with
  | some s1, some s2 => (Res.ret (decide (s1 = 0) && decide (s2 = 0)), w)
  | _, _ => (Res.undefined, w)

/-- The function `run_in_parallel`, seen from the calling process. -/
def run_in_parallel (os : Host) (cmd1 cmd2 : World → Res Int × World) (w : World) :
    Res Bool × World :=
  if os.fork w.trace = false then (Res.exit EXIT_FAILURE, w)
  else
    let w1 := { w with trace := w.trace ++ [Event.fork] }
    if os.fork w1.trace = false then
      (Res.exit EXIT_FAILURE, rejoin w (run_child cmd1 (perror "fork" w1)).2)
    else
      let w2 := { w1 with trace := w1.trace ++ [Event.fork] }
      match run_child cmd1 w2 with
      | (status1, wc1) =>
        match run_child cmd2 (rejoin w2 wc1) with
        | (status2, wc2) => wait_both status1 status2 (rejoin w2 wc2)

/-- The function `run_on_pipe`, seen from the calling process. -/
def run_on_pipe (os : Host) (cmd1 cmd2 : World → Res Int × World) (w : World) :
    Res Bool × World :=
  if os.pipe w.trace = false then (Res.exit EXIT_FAILURE, perror "pipe" w)
  else
    match sys_pipe w with
    | (rd, wr, w0) =>
      if os.fork w0.trace = false then (Res.exit EXIT_FAILURE, perror "fork" w0)
      else
        let w1 := { w0 with trace := w0.trace ++ [Event.fork] }
        let child1 := (sys_close wr (sys_dup2 wr STDOUT_FILENO (sys_close rd w1).2).2).2
        match run_child cmd1 child1 with
        | (status1, wc1) =>
          let w2 := rejoin w1 wc1
          if os.fork w2.trace = false then (Res.exit EXIT_FAILURE, perror "fork" w2)
          else
            let w3 := { w2 with trace := w2.trace ++ [Event.fork] }
            let child2 := (sys_close rd (sys_dup2 rd STDIN_FILENO (sys_close wr w3).2).2).2
            match run_child cmd2 child2 with
            | (status2, wc2) =>
              wait_both status1 status2 (sys_close wr (sys_close rd (rejoin w3 wc2)).2).2

/-! ## The tree evaluator (cmd.c 344-399) -/

/-- The function `comanda_invalida`. -/
def comanda_invalida (w : World) : World := fprintf_stderr "Invalid command\n" w

/-- The assignment `status = run_in_parallel(...)` (or `run_on_pipe`): the
`bool` result converted to `int`. -/
def status_of_bool (r : Res Bool × World) : Res Int × World :=
  match r with
  | (Res.ret b, w) => (Res.ret (if b then 1 else 0), w)
  | (Res.exit code, w) => (Res.exit code, w)
  | (Res.undefined, w) => (Res.undefined, w)

/-- The function `parse_command`, seen from the calling process.  The
arguments `level` and `father` are never read and are left out. -/
def parse_command (H : cmd_h) (os : Host) : command_t → World → Res Int × World
  | command_t.NULL, w => (Res.ret H.SHELL_EXIT, comanda_invalida w)
  | command_t.node op scmd cmd1 cmd2, w =>
    match op with
    | operator_t.OP_NONE => ((parse_simple H os scmd w).status, (parse_simple H os scmd w).world)
    | operator_t.OP_SEQUENTIAL =>
      match parse_command H os cmd1 w with
      | (Res.ret _, w1) => parse_command H os cmd2 w1
      | (Res.exit code, w1) => (Res.exit code, w1)
      | (Res.undefined, w1) => (Res.undefined, w1)
    | operator_t.OP_PARALLEL =>
      status_of_bool (run_in_parallel os (parse_command H os cmd1) (parse_command H os cmd2) w)
    | operator_t.OP_CONDITIONAL_NZERO =>
      match parse_command H os cmd1 w with
      | (Res.ret status, w1) =>
        if status ≠ 0 then parse_command H os cmd2 w1 else (Res.ret status, w1)
      | (Res.exit code, w1) => (Res.exit code, w1)
      | (Res.undefined, w1) => (Res.undefined, w1)
    | operator_t.OP_CONDITIONAL_ZERO =>
      match parse_command H os cmd1 w with
      | (Res.ret status, w1) =>
        if status = 0 then parse_command H os cmd2 w1 else (Res.ret status, w1)
      | (Res.exit code, w1) => (Res.exit code, w1)
      | (Res.undefined, w1) => (Res.undefined, w1)
    | operator_t.OP_PIPE =>
      status_of_bool (run_on_pipe os (parse_command H os cmd1) (parse_command H os cmd2) w)
    | operator_t.OP_OTHER => (Res.ret H.SHELL_EXIT, w)

/-! ## Vocabulary of the properties -/

/-- Trees whose internal nodes are all `OP_SEQUENTIAL`, down to leaves
(`OP_NONE` nodes). -/
def sequential_tree : command_t → Bool
  | command_t.NULL => false
  | command_t.node operator_t.OP_NONE _ _ _ => true
  | command_t.node operator_t.OP_SEQUENTIAL _ cmd1 cmd2 =>
    sequential_tree cmd1 && sequential_tree cmd2
  | command_t.node _ _ _ _ => false

/-- The simple commands at the leaves of a tree, from left to right. -/
def leaves : command_t → List (Option simple_command_t)
  | command_t.NULL => []
  | command_t.node operator_t.OP_NONE scmd _ _ => [scmd]
  | command_t.node _ _ cmd1 cmd2 => leaves cmd1 ++ leaves cmd2

/-- A valid simple command: neither null nor without a verb. -/
def valid_simple (s : Option simple_command_t) : Bool :=
  match s with
  | some sc => sc.verb.isSome
  | none => false

/-- A valid simple command whose verb is neither `exit` nor `quit` and whose
parameters `substitute_variables` rewrites inside their allocations. -/
def returning_simple (os : Host) (s : Option simple_command_t) : Bool :=
  match s with
  | some sc =>
    (match sc.verb with
     | some verb => decide (verb ≠ "exit") && decide (verb ≠ "quit")
     | none => false) && (substitute_params os.getenv sc.params).isSome
  | none => false

/-- The state after the simple-command executor has run on each command of
the list in turn. -/
def run_leaves (H : cmd_h) (os : Host) : List (Option simple_command_t) → World → World
  | [], w => w
  | s :: rest, w => run_leaves H os rest (parse_simple H os s w).world

/-- No `$` of the list is immediately followed by a letter. -/
def no_reference : List Char → Prop
  | [] => True
  | [_] => True
  | c :: d :: rest => (c = '$' → isalpha d = false) ∧ no_reference (d :: rest)

/-! ## A concrete system, for evaluating the model -/

/-- The constants with the values of the assignment header. -/
def demo_header : cmd_h := { SHELL_EXIT := -100, IO_OUT_APPEND := 1 }

/-- A system where `HOME=/tmp` is the whole environment, every `fork`,
`pipe`, `chdir` and creating `open` succeeds, the program `false` exits with
code 1, the program `crash` is killed by signal 9, `nosuch` cannot be
executed and every other program exits with code 0. -/
def demo_host : Host :=
  { getenv := fun name => if name = "HOME" then some "/tmp" else none
    chdir := fun _ dir => some dir
    creat := fun _ => true
    fork := fun _ => true
    pipe := fun _ => true
    exec := fun file _ w =>
      if file = "false" then some (256, w.files)
      else if file = "crash" then some (9, w.files)
      else if file = "nosuch" then none
      else some (0, w.files) }

/-- A shell with its three standard streams and nothing done yet. -/
def demo_world : World :=
  { cwd := "/"
    fds := [some (OpenFile.inherited 0), some (OpenFile.inherited 1),
      some (OpenFile.inherited 2)]
    files := []
    trace := [] }

/-- The simple command `verb params` without redirections. -/
def plain (verb : String) (params : List String) : simple_command_t :=
  { verb := some verb, params := params, in_ := none, out := none, err := none, io_flags := 0 }

/-- The leaf holding `plain verb params`. -/
def leaf (verb : String) (params : List String) : command_t :=
  command_t.node operator_t.OP_NONE (some (plain verb params)) command_t.NULL command_t.NULL

/-! ## Properties -/

/-- C9: for a leaf whose simple command is null or has no verb,
`parse_simple`, and `parse_command` on that leaf, return the nonzero status 1;
the command is left as it was (no substitution) and the state is the state
before with the `Invalid command` diagnostic appended to the trace: no fork,
no change of directory, descriptors or files. -/
theorem parse_simple_invalid (H : cmd_h) (os : Host) (s : Option simple_command_t)
    (cmd1 cmd2 : command_t) (w : World) (h : valid_simple s = false) :
    parse_simple H os s w =
        ⟨Res.ret 1, s, { w with trace := w.trace ++ [Event.stderr "Invalid command\n"] }⟩ ∧
      parse_command H os (command_t.node operator_t.OP_NONE s cmd1 cmd2) w =
        (Res.ret 1, { w with trace := w.trace ++ [Event.stderr "Invalid command\n"] }) ∧
      (1 : Int) ≠ 0 := by
  have key : parse_simple H os s w =
      ⟨Res.ret 1, s, { w with trace := w.trace ++ [Event.stderr "Invalid command\n"] }⟩ := by
    cases s with
    | none => rfl
    | some sc =>
      cases hv : sc.verb with
      | none => simp [parse_simple, hv, fprintf_stderr]
      | some v => simp [valid_simple, hv] at h
  refine ⟨key, ?_, by decide⟩
  simp [parse_command, key]

/-- Witness of C9 on a command without verb that carries a parameter with a
variable reference and an output redirection. -/
theorem parse_simple_invalid_witness :
    parse_simple demo_header demo_host
        (some { verb := none, params := ["$HOME"], in_ := none, out := some "f", err := none,
                io_flags := 0 }) demo_world =
      ⟨Res.ret 1,
        some { verb := none, params := ["$HOME"], in_ := none, out := some "f", err := none,
               io_flags := 0 },
        { demo_world with trace := demo_world.trace ++ [Event.stderr "Invalid command\n"] }⟩ :=
  (parse_simple_invalid demo_header demo_host _ command_t.NULL command_t.NULL demo_world
    (by decide)).1

/-- C2: on a conditional node `parse_command` first evaluates the left
subtree, from the state `w` to the state `w1`.  When that returns `status`,
the right subtree is evaluated, from `w1`, exactly when `status` meets the
condition of the operator (`= 0` for `OP_CONDITIONAL_ZERO`, `≠ 0` for
`OP_CONDITIONAL_NZERO`) and its result is the result of the node; otherwise
the node returns `status` in the state `w1`, whatever the right subtree is.
When the left subtree does not return, the node ends the same way in `w1`. -/
theorem parse_command_conditional (H : cmd_h) (os : Host) (scmd : Option simple_command_t)
    (cmd1 cmd2 : command_t) (w w1 : World) (r : Res Int) :
    parse_command H os cmd1 w = (r, w1) →
      parse_command H os (command_t.node operator_t.OP_CONDITIONAL_ZERO scmd cmd1 cmd2) w =
        (match r with
         | Res.ret status => if status = 0 then parse_command H os cmd2 w1 else (r, w1)
         | _ => (r, w1)) ∧
      parse_command H os (command_t.node operator_t.OP_CONDITIONAL_NZERO scmd cmd1 cmd2) w =
        (match r with
         | Res.ret status => if status ≠ 0 then parse_command H os cmd2 w1 else (r, w1)
         | _ => (r, w1)) := by
  intro h
  constructor
  · rw [parse_command, h]
    cases r <;> rfl
  · rw [parse_command, h]
    cases r <;> rfl

/-- Witness of C2: after `false`, which returns 1, `OP_CONDITIONAL_ZERO`
returns 1 in the state left by `false` (one fork, one exec: `echo` is not
run) and `OP_CONDITIONAL_NZERO` gives the result of `echo` run in that
state. -/
theorem parse_command_conditional_witness :
    parse_command demo_header demo_host (leaf "false" []) demo_world =
        (Res.ret 1, { demo_world with
          trace := [Event.fork, Event.exec "false" ["false"] demo_world.fds] }) ∧
      parse_command demo_header demo_host
          (command_t.node operator_t.OP_CONDITIONAL_ZERO none (leaf "false" [])
            (leaf "echo" ["hi"])) demo_world =
        (Res.ret 1, { demo_world with
          trace := [Event.fork, Event.exec "false" ["false"] demo_world.fds] }) ∧
      parse_command demo_header demo_host
          (command_t.node operator_t.OP_CONDITIONAL_NZERO none (leaf "false" [])
            (leaf "echo" ["hi"])) demo_world =
        parse_command demo_header demo_host (leaf "echo" ["hi"])
          { demo_world with
            trace := [Event.fork, Event.exec "false" ["false"] demo_world.fds] } :=
  ⟨by decide,
    (parse_command_conditional demo_header demo_host none (leaf "false" [])
      (leaf "echo" ["hi"])
      demo_world { demo_world with
        trace := [Event.fork, Event.exec "false" ["false"] demo_world.fds] }
      (Res.ret 1) (by decide)).1,
    (parse_command_conditional demo_header demo_host none (leaf "false" [])
      (leaf "echo" ["hi"])
      demo_world { demo_world with
        trace := [Event.fork, Event.exec "false" ["false"] demo_world.fds] }
      (Res.ret 1) (by decide)).2⟩

/-- The executor returns on every command accepted by `returning_simple`. -/
theorem parse_simple_returns (H : cmd_h) (os : Host) (s : Option simple_command_t) (w : World)
    (h : returning_simple os s = true) :
    ∃ status, (parse_simple H os s w).status = Res.ret status := by
  cases s with
  | none => simp [returning_simple] at h
  | some sc =>
    cases hv : sc.verb with
    | none => simp [returning_simple, hv] at h
    | some verb =>
      cases hp : substitute_params os.getenv sc.params with
      | none => simp [returning_simple, hv, hp] at h
      | some params =>
        simp only [returning_simple, hv, hp, Option.isSome_some, Bool.and_true,
          Bool.and_eq_true, decide_eq_true_eq] at h
        have hne : ¬ (verb = "exit" ∨ verb = "quit") := by
          rintro (h1 | h1)
          · exact h.1 h1
          · exact h.2 h1
        simp only [parse_simple, hv, hp, if_neg hne]
        repeat' (first | exact ⟨_, rfl⟩ | split)

/-- Running the executor over a concatenation of lists. -/
theorem run_leaves_append (H : cmd_h) (os : Host) (xs ys : List (Option simple_command_t))
    (w : World) :
    run_leaves H os (xs ++ ys) w = run_leaves H os ys (run_leaves H os xs w) := by
  induction xs generalizing w with
  | nil => rfl
  | cons x rest ih => simp [run_leaves, ih]

/-- On a tree of `OP_SEQUENTIAL` nodes whose leaves all return, the
evaluator runs the executor on the leaves from left to right and returns
what it returned for the last one. -/
theorem sequential_run (H : cmd_h) (os : Host) (t : command_t) :
    sequential_tree t = true → (∀ s ∈ leaves t, returning_simple os s = true) →
      ∀ w : World, ∃ pre last status,
        leaves t = pre ++ [last] ∧
        (parse_simple H os last (run_leaves H os pre w)).status = Res.ret status ∧
        parse_command H os t w =
          (Res.ret status, (parse_simple H os last (run_leaves H os pre w)).world) := by
  induction t with
  | NULL => intro hseq; simp [sequential_tree] at hseq
  | node op scmd cmd1 cmd2 ih1 ih2 =>
    intro hseq hleaf w
    cases op with
    | OP_NONE =>
      obtain ⟨status, hst⟩ := parse_simple_returns H os scmd w (hleaf scmd (by simp [leaves]))
      exact ⟨[], scmd, status, by simp [leaves], hst, by simp [parse_command, run_leaves, hst]⟩
    | OP_SEQUENTIAL =>
      simp only [sequential_tree, Bool.and_eq_true] at hseq
      have hl1 : ∀ s ∈ leaves cmd1, returning_simple os s = true :=
        fun s hs => hleaf s (by simp [leaves, hs])
      have hl2 : ∀ s ∈ leaves cmd2, returning_simple os s = true :=
        fun s hs => hleaf s (by simp [leaves, hs])
      obtain ⟨pre1, last1, st1, e1, r1, p1⟩ := ih1 hseq.1 hl1 w
      obtain ⟨pre2, last2, st2, e2, r2, p2⟩ :=
        ih2 hseq.2 hl2 (parse_simple H os last1 (run_leaves H os pre1 w)).world
      have hw : run_leaves H os (leaves cmd1 ++ pre2) w =
          run_leaves H os pre2 (parse_simple H os last1 (run_leaves H os pre1 w)).world := by
        rw [run_leaves_append, e1, run_leaves_append]
        rfl
      refine ⟨leaves cmd1 ++ pre2, last2, st2, ?_, ?_, ?_⟩
      · simp [leaves, e2]
      · rw [hw]; exact r2
      · rw [parse_command, p1, hw]
        exact p2
    | OP_PARALLEL => simp [sequential_tree] at hseq
    | OP_CONDITIONAL_NZERO => simp [sequential_tree] at hseq
    | OP_CONDITIONAL_ZERO => simp [sequential_tree] at hseq
    | OP_PIPE => simp [sequential_tree] at hseq
    | OP_OTHER => simp [sequential_tree] at hseq

/-- C3, as amended: for every tree whose internal nodes are all
`OP_SEQUENTIAL` and whose leaves are valid simple commands other than `exit`
and `quit`, with parameters that `substitute_variables` rewrites inside their
allocations, `parse_command` runs the executor on every leaf, from left to
right (the last leaf `last` is executed in the state `run_leaves pre` left by
all the leaves `pre` before it), and returns exactly the status the executor
returned for the rightmost leaf. -/
theorem parse_command_sequential (H : cmd_h) (os : Host) (t : command_t) (w : World)
    (hseq : sequential_tree t = true)
    (hleaf : ∀ s ∈ leaves t, returning_simple os s = true) :
    ∃ pre last status,
      leaves t = pre ++ [last] ∧
      (parse_simple H os last (run_leaves H os pre w)).status = Res.ret status ∧
      parse_command H os t w =
        (Res.ret status, (parse_simple H os last (run_leaves H os pre w)).world) :=
  sequential_run H os t hseq hleaf w

/-- Witness of C3 as amended, on `(false ; cd /usr) ; echo $HOME`. -/
theorem parse_command_sequential_witness :
    ∃ pre last status,
      leaves (command_t.node operator_t.OP_SEQUENTIAL none
          (command_t.node operator_t.OP_SEQUENTIAL none (leaf "false" []) (leaf "cd" ["/usr"]))
          (leaf "echo" ["$HOME"])) = pre ++ [last] ∧
      (parse_simple demo_header demo_host last
        (run_leaves demo_header demo_host pre demo_world)).status = Res.ret status ∧
      parse_command demo_header demo_host
          (command_t.node operator_t.OP_SEQUENTIAL none
            (command_t.node operator_t.OP_SEQUENTIAL none (leaf "false" []) (leaf "cd" ["/usr"]))
            (leaf "echo" ["$HOME"])) demo_world =
        (Res.ret status,
          (parse_simple demo_header demo_host last
            (run_leaves demo_header demo_host pre demo_world)).world) :=
  parse_command_sequential demo_header demo_host _ demo_world (by decide) (by decide)

/-- Counterexample to C3 as stated: `exit ; echo hi` is a tree of one
`OP_SEQUENTIAL` node over two valid simple commands, yet `parse_command`
returns no status: the left leaf terminates the process with
`EXIT_FAILURE` and the right leaf is never executed (the trace stays empty,
while the executor run on `echo hi` would fork and return 0). -/
theorem sequential_exit_counterexample :
    sequential_tree (command_t.node operator_t.OP_SEQUENTIAL none (leaf "exit" [])
        (leaf "echo" ["hi"])) = true ∧
      (∀ s ∈ leaves (command_t.node operator_t.OP_SEQUENTIAL none (leaf "exit" [])
        (leaf "echo" ["hi"])), valid_simple s = true) ∧
      parse_command demo_header demo_host
          (command_t.node operator_t.OP_SEQUENTIAL none (leaf "exit" []) (leaf "echo" ["hi"]))
          demo_world = (Res.exit EXIT_FAILURE, demo_world) ∧
      (parse_simple demo_header demo_host (some (plain "echo" ["hi"])) demo_world).status =
        Res.ret 0 ∧
      (parse_simple demo_header demo_host (some (plain "echo" ["hi"])) demo_world).world.trace =
        [Event.fork, Event.exec "echo" ["echo", "hi"] demo_world.fds] ∧
      ¬ ∃ pre last status,
        leaves (command_t.node operator_t.OP_SEQUENTIAL none (leaf "exit" [])
          (leaf "echo" ["hi"])) = pre ++ [last] ∧
        (parse_simple demo_header demo_host last
          (run_leaves demo_header demo_host pre demo_world)).status = Res.ret status ∧
        parse_command demo_header demo_host
            (command_t.node operator_t.OP_SEQUENTIAL none (leaf "exit" []) (leaf "echo" ["hi"]))
            demo_world =
          (Res.ret status,
            (parse_simple demo_header demo_host last
              (run_leaves demo_header demo_host pre demo_world)).world) := by
  refine ⟨by decide, by decide, by decide, by decide, by decide, ?_⟩
  rintro ⟨pre, last, status, -, -, h⟩
  have h1 : parse_command demo_header demo_host
      (command_t.node operator_t.OP_SEQUENTIAL none (leaf "exit" []) (leaf "echo" ["hi"]))
      demo_world = (Res.exit EXIT_FAILURE, demo_world) := by decide
  rw [h1] at h
  cases h

/-- The recursive form of the condition on consecutive bytes. -/
theorem no_reference_of_zip (l : List Char)
    (h : ∀ p ∈ l.zip l.tail, p.1 = '$' → isalpha p.2 = false) : no_reference l := by
  induction l with
  | nil => trivial
  | cons c rest ih =>
    cases rest with
    | nil => trivial
    | cons d rest2 =>
      refine ⟨fun hc => h (c, d) (by simp) hc, ih ?_⟩
      intro p hp
      exact h p (List.mem_cons_of_mem _ hp)

/-- The C string read from the bytes of a string followed by the terminator. -/
theorem cstr_append_NUL (l : List Char) (h : ∀ c ∈ l, c ≠ NUL) : cstr (l ++ [NUL]) = l := by
  induction l with
  | nil => simp [cstr]
  | cons c rest ih =>
    have hb : (c != NUL) = true := by simpa using h c (by simp)
    have := ih (fun d hd => h d (by simp [hd]))
    simp only [cstr] at this
    simp only [cstr, List.cons_append, List.takeWhile_cons, hb, if_true, this]

/-- A list without terminator is its own C string. -/
theorem cstr_of_no_NUL (l : List Char) (h : ∀ c ∈ l, c ≠ NUL) : cstr l = l := by
  induction l with
  | nil => simp [cstr]
  | cons c rest ih =>
    have hb : (c != NUL) = true := by simpa using h c (by simp)
    have := ih (fun d hd => h d (by simp [hd]))
    simp only [cstr] at this
    simp only [cstr, List.takeWhile_cons, hb, if_true, this]

/-- Reading past a prefix of the allocation. -/
theorem get_append_add (pre l : List Char) (k : Nat) :
    (pre ++ l).get? (pre.length + k) = l.get? k := by
  induction pre with
  | nil => simp
  | cons a p ih =>
    have : (a :: p).length + k = (p.length + k) + 1 := by simp; omega
    rw [List.cons_append, this, List.get?_cons_succ, ih]

/-- The loop leaves an allocation without reference as it is. -/
theorem substitute_loop_no_reference (getenv : String → Option String) (suf : List Char) :
    (∀ c ∈ suf, c ≠ NUL) → no_reference suf → ∀ pre : List Char,
      substitute_loop getenv (suf.length + 1) (pre ++ (suf ++ [NUL])) pre.length =
        some (pre ++ (suf ++ [NUL])) := by
  induction suf with
  | nil =>
    intro _ _ pre
    simp [substitute_loop]
  | cons c rest ih =>
    intro hnul href pre
    have hc : c ≠ NUL := hnul c (by simp)
    have hrest : ∀ d ∈ rest, d ≠ NUL := fun d hd => hnul d (by simp [hd])
    have href2 : no_reference rest := by
      cases rest with
      | nil => trivial
      | cons d r => exact href.2
    have hstep := ih hrest href2 (pre ++ [c])
    simp only [List.append_assoc, List.singleton_append, List.length_append,
      List.length_singleton] at hstep
    have hget : (pre ++ (c :: rest ++ [NUL])).get? pre.length = some c := by
      simpa using get_append_add pre (c :: rest ++ [NUL]) 0
    rw [List.length_cons, substitute_loop, hget]
    simp only [if_neg hc]
    by_cases hd : c = '$'
    · simp only [if_pos hd]
      cases rest with
      | nil =>
        have hget2 : (pre ++ ([c] ++ [NUL])).get? (pre.length + 1) = some NUL :=
          get_append_add pre ([c] ++ [NUL]) 1
        rw [hget2]
        have : isalpha NUL = false := by decide
        simp only [this]
        exact hstep
      | cons d r =>
        have hget2 : (pre ++ (c :: d :: r ++ [NUL])).get? (pre.length + 1) = some d :=
          get_append_add pre (c :: d :: r ++ [NUL]) 1
        rw [hget2]
        have : isalpha d = false := href.1 hd
        simp only [this]
        exact hstep
    · simp only [if_neg hd]
      exact hstep

/-- C5: when the input holds no terminator and no `$` immediately followed
by a letter (every pair `p` of consecutive bytes with `p.1 = '$'` has
`p.2` not a letter), `substitute_variables` returns its input, whatever the
environment; applying it to its own result gives the same result again. -/
theorem substitute_variables_no_reference (getenv getenv2 : String → Option String)
    (input : String) (hnul : ∀ c ∈ input.data, c ≠ NUL)
    (href : ∀ p ∈ input.data.zip input.data.tail, p.1 = '$' → isalpha p.2 = false) :
    substitute_variables getenv input = some input ∧
      substitute_variables getenv2 input = substitute_variables getenv input ∧
      (substitute_variables getenv input).bind (substitute_variables getenv) =
        substitute_variables getenv input := by
  have key : ∀ g : String → Option String, substitute_variables g input = some input := by
    intro g
    have hloop := substitute_loop_no_reference g input.data hnul
      (no_reference_of_zip input.data href) []
    simp only [List.nil_append, List.length_nil] at hloop
    simp only [substitute_variables, strdup, cstr_of_no_NUL input.data hnul,
      List.length_append, List.length_singleton, hloop, Option.map_some',
      cstr_append_NUL input.data hnul]
  rw [key getenv, key getenv2]
  exact ⟨rfl, rfl, by simp [key getenv]⟩

/-- Witness of C5 on a string with a trailing `$` and a `$` before a digit. -/
theorem substitute_variables_no_reference_witness :
    substitute_variables demo_host.getenv "$1abc a$" = some "$1abc a$" ∧
      substitute_variables (fun _ => some "x") "$1abc a$" =
        substitute_variables demo_host.getenv "$1abc a$" ∧
      (substitute_variables demo_host.getenv "$1abc a$").bind
          (substitute_variables demo_host.getenv) =
        substitute_variables demo_host.getenv "$1abc a$" :=
  substitute_variables_no_reference demo_host.getenv (fun _ => some "x") "$1abc a$"
    (by decide) (by decide)

/-- C1 (evaluation of the code): the status `parse_command` returns for an
`OP_PARALLEL` or `OP_PIPE` node is the `bool` of `status1 == 0 && status2 == 0`
converted to `int`: 1 when both children terminated with status 0, 0 as soon
as one did not.  With `true` (exit code 0) and `false` (exit code 1) as
leaves: (success, success) gives 1, (success, failure) and
(failure, failure) give 0. -/
theorem parallel_pipe_status :
    (∀ (s1 s2 : Nat) (w : World),
        status_of_bool (wait_both (some s1) (some s2) w) =
          (Res.ret (if s1 = 0 ∧ s2 = 0 then 1 else 0), w)) ∧
      (parse_command demo_header demo_host (command_t.node operator_t.OP_PARALLEL none
        (leaf "true" []) (leaf "true" [])) demo_world).1 = Res.ret 1 ∧
      (parse_command demo_header demo_host (command_t.node operator_t.OP_PARALLEL none
        (leaf "true" []) (leaf "false" [])) demo_world).1 = Res.ret 0 ∧
      (parse_command demo_header demo_host (command_t.node operator_t.OP_PARALLEL none
        (leaf "false" []) (leaf "false" [])) demo_world).1 = Res.ret 0 ∧
      (parse_command demo_header demo_host (command_t.node operator_t.OP_PIPE none
        (leaf "true" []) (leaf "true" [])) demo_world).1 = Res.ret 1 ∧
      (parse_command demo_header demo_host (command_t.node operator_t.OP_PIPE none
        (leaf "true" []) (leaf "false" [])) demo_world).1 = Res.ret 0 ∧
      (parse_command demo_header demo_host (command_t.node operator_t.OP_PIPE none
        (leaf "false" []) (leaf "false" [])) demo_world).1 = Res.ret 0 := by
  refine ⟨?_, by decide, by decide, by decide, by decide, by decide, by decide⟩
  intro s1 s2 w
  by_cases h1 : s1 = 0 <;> by_cases h2 : s2 = 0 <;> simp [wait_both, status_of_bool, h1, h2]

/-- C4 (evaluation of the code): with `HOME=/tmp` the only variable,
`substitute_variables` turns `$HOME/x` into `$/tmp` (the `$` stays, the text
after the name is cut off by the terminator stored at `var_end`), leaves
`$UNSET` as it is, cuts `$UNSET/x` down to `$UNSET`, and expands only the
first of two references. -/
theorem substitute_variables_evaluated :
    substitute_variables demo_host.getenv "$HOME/x" = some "$/tmp" ∧
      substitute_variables demo_host.getenv "$UNSET" = some "$UNSET" ∧
      substitute_variables demo_host.getenv "$UNSET/x" = some "$UNSET" ∧
      substitute_variables demo_host.getenv "$HOME $HOME" = some "$/tmp" := by
  refine ⟨by decide, by decide, by decide, by decide⟩

/-- C6 (evaluation of the code): for `echo a b c` the vector handed to
`execvp` is `echo a b`; every parameter after the second is dropped. -/
theorem build_args_three_parameters :
    (parse_simple demo_header demo_host (some (plain "echo" ["a", "b", "c"]))
        demo_world).world.trace =
        [Event.fork, Event.exec "echo" ["echo", "a", "b"] demo_world.fds] ∧
      ∀ (verb p1 p2 p3 : String) (rest : List String),
        build_args verb (p1 :: p2 :: p3 :: rest) = [verb, p1, p2] := by
  refine ⟨by decide, ?_⟩
  intro verb p1 p2 p3 rest
  rfl

/-- C7 (evaluation of the code): a child that exits normally with code
`k < 256` makes `parse_simple` return `k`, but for a child killed by signal 9
(wait status 9) `parse_simple` returns `WEXITSTATUS(9) = 0`, the success
status. -/
theorem parse_simple_signalled_child :
    (∀ k : Nat, k < 256 → WEXITSTATUS (exit_status k) = k) ∧
      WEXITSTATUS 9 = 0 ∧
      (parse_simple demo_header demo_host (some (plain "crash" [])) demo_world).status =
        Res.ret 0 ∧
      (parse_simple demo_header demo_host (some (plain "crash" [])) demo_world).world.trace =
        [Event.fork, Event.exec "crash" ["crash"] demo_world.fds] := by
  refine ⟨?_, by decide, by decide, by decide⟩
  intro k hk
  have h1 : ((k : Int) % 256).toNat = k := by omega
  simp only [exit_status, WEXITSTATUS, h1, Nat.shiftRight_eq_div_pow]
  have h2 : k * 256 / 2 ^ 8 = k := by omega
  rw [h2]
  have h3 : k &&& 2 ^ 8 - 1 = k % 2 ^ 8 := Nat.and_pow_two_sub_one_eq_mod k 8
  have h4 : k % 2 ^ 8 = k := Nat.mod_eq_of_lt hk
  rw [h4] at h3
  exact h3

/-- C8 (evaluation of the code): for `cmd > out 2> err`, both targets in
truncate mode (`io_flags = 0`), the redirections leave the standard output
and the standard error both bound to `err`; this is the descriptor table the
program is executed with. -/
theorem redirections_out_and_err :
    (redirections demo_header demo_host
        { verb := some "cmd", params := [], in_ := none, out := some "out", err := some "err",
          io_flags := 0 } demo_world).toOption.map
        (fun w => (fd_get w.fds 1, fd_get w.fds 2)) =
        some (some (OpenFile.file "err" OpenMode.O_TRUNC),
          some (OpenFile.file "err" OpenMode.O_TRUNC)) ∧
      (parse_simple demo_header demo_host
        (some { verb := some "cmd", params := [], in_ := none, out := some "out",
                err := some "err", io_flags := 0 }) demo_world).world.trace =
        [Event.fork, Event.open_ "out" OpenMode.O_TRUNC, Event.open_ "err" OpenMode.O_TRUNC,
          Event.exec "cmd" ["cmd"]
            [some (OpenFile.inherited 0), some (OpenFile.file "err" OpenMode.O_TRUNC),
              some (OpenFile.file "err" OpenMode.O_TRUNC), none]] := by
  refine ⟨by decide, by decide⟩

/-- C10 (evaluation of the code): for `gcc file.c -o exe` the loop ends with
input file `exe`, the operand of `-o`, and the child runs `gcc -o exe exe`;
for `gcc -o exe file.c` it runs `gcc -o exe file.c`.  The input file is the
last parameter, not the first one that is neither `-o` nor its operand. -/
theorem gcc_files_evaluated :
    gcc_files ["file.c", "-o", "exe"] none "output" = (some "exe", "exe") ∧
      gcc_files ["-o", "exe", "file.c"] none "output" = (some "file.c", "exe") ∧
      (parse_simple demo_header demo_host (some (plain "gcc" ["file.c", "-o", "exe"]))
        demo_world).world.trace =
        [Event.fork, Event.exec "gcc" ["gcc", "-o", "exe", "exe"] demo_world.fds] ∧
      (parse_simple demo_header demo_host (some (plain "gcc" ["-o", "exe", "file.c"]))
        demo_world).world.trace =
        [Event.fork, Event.exec "gcc" ["gcc", "-o", "exe", "file.c"] demo_world.fds] := by
  refine ⟨by decide, by decide, by decide, by decide⟩

end MiniShell
